import Mathlib

/-!
Verification of the executor container agent against its specification.

The embedding models the code in `depot/gardenstore/garden_store.go`
(the container store backed by the garden runtime, its stop/destroy
paths and the run-step supervisor loop), `depot/steps/monitor_step.go`
(the periodic monitor), `depot/steps/long_running_monitor_step.go`
(the two-phase readiness/liveness monitor), the download step
(`steps/download_step.go`, present as `src/unnamed/part_002`), and the
allocation store, serial step and parallel step, whose implementations
are absent from the source tree and are modelled from the specification
(pinned by the in-repo tests where those exist).

Side effects (runtime property writes, emitted events, process signals)
are modelled as explicit effect traces; machine time is modelled as
integers (Go `time.Duration` / `time.Time` nanoseconds).
-/

deriving instance DecidableEq for Except

namespace Executor

/-- A step error.  `basic msg` models an ordinary (non-emittable) Go error
whose `Error()` string is `msg`; `emittable msg` models an
`*emittable_error.Error` produced by `NewEmittableError`, carrying the
user-facing message `msg` (the wrapped inner error is not inspected by any
claim and is not modelled). -/
inductive MErr where
  | basic (msg : String)
  | emittable (msg : String)
  deriving DecidableEq

/-- `Error()` on a modelled error. -/
def MErr.errString : MErr → String
  | .basic msg => msg
  | .emittable msg => msg

/-- Whether an error is an emittable error (the type test
`err.(*emittable_error.Error)`). -/
def MErr.isEmittable : MErr → Bool
  | .basic _ => false
  | .emittable _ => true

/-- `executor.ContainerRunResult`: success flag and a human reason. -/
structure ContainerRunResult where
  failed : Bool
  failureReason : String
  deriving DecidableEq

/-- Errors returned synchronously by the stores
(`executor.ErrInvalidTransition`, `executor.ErrContainerNotFound`,
`executor.ErrContainerGuidNotAvailable`). -/
inductive ExecErr where
  | invalidTransition
  | containerNotFound
  | alreadyExists
  deriving DecidableEq

/-- `Error()` on a store error.  The `executor` package that holds the
exact strings is not in the source tree; the claims depend only on the
value being recorded, so an arbitrary injective rendering is used. -/
def ExecErr.errString : ExecErr → String
  | .invalidTransition => "invalid state transition"
  | .containerNotFound => "container not found"
  | .alreadyExists => "container guid not available"

/-- `executor.State` of a container. -/
inductive ContainerState where
  | reserved
  | initializing
  | created
  | running
  | completed
  deriving DecidableEq

/-- The string value written to the garden state property
(`string(executor.StateX)`); the exact constants live in the missing
`executor` package, so distinct stand-ins are used. -/
def ContainerState.propString : ContainerState → String
  | .reserved => "reserved"
  | .initializing => "initializing"
  | .created => "created"
  | .running => "running"
  | .completed => "completed"

/-- The garden property key holding the container state
(`ContainerStateProperty`). -/
def containerStateProperty : String := "executor:state"

/-- The garden property key holding the run result
(`ContainerResultProperty`). -/
def containerResultProperty : String := "executor:result"

/-- `json.Marshal` of a `ContainerRunResult`, modelled as an injective
encoding. -/
def encodeResult (r : ContainerRunResult) : String :=
  "failed=" ++ (toString r.failed) ++ ";failure_reason=" ++ r.failureReason

/-- The modelled state of a garden (runtime) container: the two
properties the store writes. -/
structure GContainer where
  stateProp : String
  resultProp : String
  deriving DecidableEq

/-- Events emitted through the event emitter; each carries the executor
container derived from the garden container properties
(`Garden2Executor`), modelled here as the property snapshot. -/
inductive Event where
  | running (snapshot : GContainer)
  | complete (snapshot : GContainer)
  deriving DecidableEq

/-- An observable side effect of a garden-store operation, in program
order: a runtime property write, an emitted event, a cancel of the step
tree, a signal to / wait on a supervisor process, or a runtime destroy
call. -/
inductive Effect where
  | setProperty (key value : String)
  | emitEvent (e : Event)
  | cancelStep
  | signalProcess (guid : String)
  | waitProcess (guid : String)
  | gardenDestroy (guid : String)
  deriving DecidableEq

namespace GardenStore

/-- The mutable state of a `GardenStore` relevant to the claims: the
`runningProcesses` registry (map guid → supervisor handle, modelled as
the list of registered guids) and the garden runtime's containers (map
guid → container). -/
structure StoreState where
  runningProcesses : List String
  garden : List (String × GContainer)
  deriving DecidableEq

/-- `gardenClient.Lookup(guid)` on the modelled runtime. -/
def gardenLookup (s : StoreState) (guid : String) : Option GContainer :=
  (s.garden.find? (fun p => p.1 = guid)).map (·.2)

/-- Replace the garden container stored under `guid`. -/
def gardenUpdate (g : List (String × GContainer)) (guid : String)
    (c : GContainer) : List (String × GContainer) :=
  g.map (fun p => if p.1 = guid then (p.1, c) else p)

/-- `transitionToComplete` (garden_store.go:415-439): writes the
marshalled result property, writes the state property `completed`, then
emits a Complete event carrying the container read back from the
properties.  Garden property writes are modelled as always succeeding. -/
def transitionToComplete (_g : GContainer) (result : ContainerRunResult) :
    GContainer × List Effect :=
  let g' : GContainer :=
    { stateProp := ContainerState.completed.propString
      resultProp := encodeResult result }
  (g', [ .setProperty containerResultProperty (encodeResult result)
       , .setProperty containerStateProperty ContainerState.completed.propString
       , .emitEvent (.complete g') ])

/-- `transitionToRunning` (garden_store.go:399-413): writes the state
property `running` and emits a Running event. -/
def transitionToRunning (g : GContainer) : GContainer × List Effect :=
  let g' : GContainer := { g with stateProp := ContainerState.running.propString }
  (g', [ .setProperty containerStateProperty ContainerState.running.propString
       , .emitEvent (.running g') ])

/-- The part of an `executor.Container` that `Run` inspects. -/
structure ExecContainer where
  guid : String
  state : ContainerState
  deriving DecidableEq

/-- `GardenStore.Run` (garden_store.go:213-318).  Looks up the garden
container; a missing container fails with not-found and no effect.  On a
container whose state is not `Created` it builds a failed run result
with the invalid-transition reason, applies `transitionToComplete` to
the garden container, and returns `ErrInvalidTransition`.  Otherwise it
builds the step tree, spawns the supervisor (modelled separately by
`runStepLoop`), registers the process handle under the guid and returns
nil. -/
def Run (s : StoreState) (c : ExecContainer) :
    Except ExecErr Unit × StoreState × List Effect :=
  match gardenLookup s c.guid with
  | none => (.error .containerNotFound, s, [])
  | some g =>
    if c.state = .created then
      (.ok (), { s with runningProcesses := c.guid :: s.runningProcesses }, [])
    else
      let result : ContainerRunResult :=
        { failed := true, failureReason := ExecErr.invalidTransition.errString }
      let (g', effs) := transitionToComplete g result
      (.error .invalidTransition,
       { s with garden := gardenUpdate s.garden c.guid g' }, effs)

/-- `freeStepProcess` (garden_store.go:143-162): removes the process
registered under `guid` (if any) and signals it with an interrupt; it
does not wait for it.  Returns whether a process was found. -/
def freeStepProcess (s : StoreState) (guid : String) :
    Bool × StoreState × List Effect :=
  if guid ∈ s.runningProcesses then
    (true,
     { s with runningProcesses := s.runningProcesses.filter (fun g => ¬ (g = guid)) },
     [.signalProcess guid])
  else
    (false, s, [])

/-- `GardenStore.Stop` (garden_store.go:164-176): frees the step
process; if none was registered returns `ErrContainerNotFound`,
otherwise waits for the signalled process to exit and returns nil.  It
never consults the garden runtime. -/
def Stop (s : StoreState) (guid : String) :
    Except ExecErr Unit × StoreState × List Effect :=
  let (found, s', effs) := freeStepProcess s guid
  if found then (.ok (), s', effs ++ [.waitProcess guid])
  else (.error .containerNotFound, s', effs)

/-- `GardenStore.Destroy` (garden_store.go:178-198): frees (signals) the
step process without waiting for it, then immediately calls
`gardenClient.Destroy(guid)`; a runtime not-found on destroy is treated
as success. -/
def Destroy (s : StoreState) (guid : String) :
    Except ExecErr Unit × StoreState × List Effect :=
  let (_, s', effs) := freeStepProcess s guid
  (.ok (),
   { s' with garden := s'.garden.filter (fun p => ¬ (p.1 = guid)) },
   effs ++ [.gardenDestroy guid])

/-- An event observed by the supervisor loop in `runStepProcess`
(garden_store.go:320-397): an external stop signal, the readiness token,
or completion of the whole step tree with its result (`none` = nil
error). -/
inductive LoopEvent where
  | signal
  | hasStartedRunning
  | seqComplete (e : Option MErr)
  deriving DecidableEq

/-- The supervisor loop's local state: whether the `signals` and
`hasStartedRunning` channels are still selected (they are set to nil
after their first receive), whether a stop was observed, and the run
result being accumulated. -/
structure LoopState where
  signalsActive : Bool
  hasStartedActive : Bool
  toldToStop : Bool
  result : ContainerRunResult
  deriving DecidableEq

/-- The loop state at entry to `runStepProcess`: both channels live, not
told to stop, zero-valued result. -/
def loopInit : LoopState :=
  { signalsActive := true, hasStartedActive := true, toldToStop := false,
    result := { failed := false, failureReason := "" } }

/-- The supervisor loop of `runStepProcess` (garden_store.go:327-389),
driven by the sequence of channel events it observes.  On a signal it
cancels the step and records told-to-stop; on the readiness token it
transitions the garden container to running; on step completion it
records a failure only when the error is non-nil and it was not told to
stop, then transitions the container to complete and emits the Complete
event.  Returns `none` when the event list ends before the step
completes (the loop is still waiting). -/
def runStepLoop (g : GContainer) (st : LoopState) (effs : List Effect) :
    List LoopEvent → Option (GContainer × ContainerRunResult × List Effect)
  | [] => none
  | ev :: rest =>
    match ev with
    | .signal =>
      if st.signalsActive then
        runStepLoop g
          { st with signalsActive := false, toldToStop := true }
          (effs ++ [.cancelStep]) rest
      else runStepLoop g st effs rest
    | .hasStartedRunning =>
      if st.hasStartedActive then
        let (g', e2) := transitionToRunning g
        runStepLoop g' { st with hasStartedActive := false } (effs ++ e2) rest
      else runStepLoop g st effs rest
    | .seqComplete e =>
      let result :=
        match e with
        | none => st.result
        | some err =>
          if st.toldToStop then st.result
          else { failed := true, failureReason := err.errString }
      let (g', e2) := transitionToComplete g result
      some (g', result, effs ++ e2)

end GardenStore

namespace MonitorStep

/-- Static configuration of the periodic monitor step
(`monitor_step.go`): start timeout, healthy and unhealthy check
intervals (Go durations in nanoseconds), and the time at which `Perform`
starts (`timeProvider.Now()`). -/
structure MonitorConfig where
  startTimeout : Int
  healthyInterval : Int
  unhealthyInterval : Int
  now0 : Int
  deriving DecidableEq

/-- The error built by `invalidInterval(field, interval)`. -/
def invalidIntervalErr (field : String) (interval : Int) : MErr :=
  .basic ("The " ++ field ++ " interval, " ++ (toString interval) ++ ", is not positive.")

/-- The loop-local state of `monitorStep.Perform`: the healthy flag, the
current tick interval, the optional absolute deadline `startBy`, and the
number of tokens sent on `hasStartedRunning` so far. -/
structure MonState where
  healthy : Bool
  interval : Int
  startBy : Option Int
  tokens : Nat
  deriving DecidableEq

/-- The state at loop entry (monitor_step.go:68-75): unhealthy, ticking
at the unhealthy interval, with `startBy = now + startTimeout` when the
start timeout is positive; no token sent yet. -/
def monInit (cfg : MonitorConfig) : MonState :=
  { healthy := false
    interval := cfg.unhealthyInterval
    startBy := if 0 < cfg.startTimeout then some (cfg.now0 + cfg.startTimeout) else none
    tokens := 0 }

/-- Result of processing one timer tick: either the loop continues with
an updated state, or `Perform` returns the given error value (`none`
models a nil error return). -/
inductive MonOutcome where
  | running (st : MonState)
  | done (res : Option MErr) (st : MonState)
  deriving DecidableEq

/-- The healthy-transition branch of the tick (monitor_step.go:98-104):
on the first successful check the step becomes healthy, sends one token
on `hasStartedRunning`, switches to the healthy interval and clears the
deadline; otherwise the state is unchanged. -/
def monTransition (cfg : MonitorConfig) (st : MonState) (nowHealthy : Bool) :
    MonState :=
  if !st.healthy && nowHealthy then
    { st with healthy := true, tokens := st.tokens + 1,
              interval := cfg.healthyInterval, startBy := none }
  else st

/-- The deadline check of the tick (monitor_step.go:106-114): when
`startBy` is set and the tick time is strictly past it, a still-unhealthy
step returns the check's error (after logging the timeout message); a
healthy step merely clears the deadline. -/
def monDeadline (st' : MonState) (now : Int) (stepErr : Option MErr) :
    MonOutcome :=
  match st'.startBy with
  | some t =>
    if t < now then
      if st'.healthy then .running { st' with startBy := none }
      else .done stepErr st'
    else .running st'
  | none => .running st'

/-- One iteration of the `monitorStep.Perform` loop at a timer tick
(monitor_step.go:82-119), absent cancellation: the check is run and
yields `stepErr`; a failure while healthy returns that error; otherwise
the healthy-transition branch and then the deadline check run. -/
def monTick (cfg : MonitorConfig) (st : MonState) (now : Int)
    (stepErr : Option MErr) : MonOutcome :=
  if st.healthy && !stepErr.isNone then
    .done stepErr st
  else
    monDeadline (monTransition cfg st stepErr.isNone) now stepErr

/-- The `monitorStep.Perform` loop run over a finite schedule of timer
ticks, each with its fire time and the outcome of that tick's check. -/
def monRun (cfg : MonitorConfig) (st : MonState) :
    List (Int × Option MErr) → MonOutcome
  | [] => .running st
  | (now, e) :: rest =>
    match monTick cfg st now e with
    | .done r st' => .done r st'
    | .running st' => monRun cfg st' rest

/-- `monitorStep.Perform` (monitor_step.go:59-129), absent cancellation:
non-positive intervals fail fast with `invalidInterval`; otherwise the
tick loop runs over the given schedule. -/
def monPerform (cfg : MonitorConfig) (ticks : List (Int × Option MErr)) :
    MonOutcome :=
  if cfg.healthyInterval ≤ 0 then
    .done (some (invalidIntervalErr "healthy" cfg.healthyInterval)) (monInit cfg)
  else if cfg.unhealthyInterval ≤ 0 then
    .done (some (invalidIntervalErr "unhealthy" cfg.unhealthyInterval)) (monInit cfg)
  else monRun cfg (monInit cfg) ticks

/-- The final monitor state of an outcome. -/
def MonOutcome.finalSt : MonOutcome → MonState
  | .running st => st
  | .done _ st => st

end MonitorStep

namespace LongRunningMonitor

/-- Which event resolves the readiness-phase select of
`longRunningMonitorStep.Perform` (long_running_monitor_step.go:73-85):
the readiness check returns (its result is received from `errCh` and
discarded), the start-timeout timer fires first (the check is cancelled
and its eventual result `e` is received), or the step is cancelled first
(likewise receiving `e`). -/
inductive Phase1 where
  | checkReturns (e : Option MErr)
  | timerFires (e : Option MErr)
  | cancelFirst (e : Option MErr)
  deriving DecidableEq

/-- Which event resolves the liveness-phase select
(long_running_monitor_step.go:96-105): the liveness check returns with
result `e`, or the step is cancelled first and the check's eventual
result `e` is received. -/
inductive Phase2 where
  | checkReturns (e : Option MErr)
  | cancelFirst (e : Option MErr)
  deriving DecidableEq

/-- The message of the emittable error built on the timeout and
unhealthy paths (`healthcheckNowUnhealthy`; the constant's definition is
outside the source tree). -/
def healthcheckNowUnhealthy : String := "Instance became unhealthy"

/-- Result of `longRunningMonitorStep.Perform`: the returned error value
(`none` = nil) and how many tokens were sent on `hasStartedRunning`. -/
structure LRMOutcome where
  result : Option MErr
  tokens : Nat
  deriving DecidableEq

/-- `longRunningMonitorStep.Perform` (long_running_monitor_step.go:58-106)
as a function of how its two selects resolve.  Note the readiness select
receives from `errCh` without inspecting the value: any return of the
readiness check — success or error — transitions the step, sends the
token, and starts the liveness phase.  Only the timer and cancel
branches return before the token is sent. -/
def lrmPerform (p1 : Phase1) (p2 : Phase2) : LRMOutcome :=
  match p1 with
  | .timerFires _ =>
    { result := some (.emittable healthcheckNowUnhealthy), tokens := 0 }
  | .cancelFirst e => { result := e, tokens := 0 }
  | .checkReturns _ =>
    match p2 with
    | .checkReturns _ =>
      { result := some (.emittable healthcheckNowUnhealthy), tokens := 1 }
    | .cancelFirst e => { result := e, tokens := 1 }

end LongRunningMonitor

namespace AllocationStore

/-- Modelled from the spec: the state of an entry in the allocation
store.  The `AllocationStore` implementation
(`depot/allocationstore/allocation_store.go`) is missing from src/ —
only its test is present.  §4.1 gives the operations; the in-repo test
(`allocationstore_test.go:202-215`, `318-334`) pins `Fail`'s effect as
recording the failed run result and marking the entry `Completed`. -/
inductive AllocState where
  | reserved
  | initializing
  | completed
  deriving DecidableEq

/-- Modelled from the spec: an allocation-store entry — its state, run
result and allocation timestamp (see `AllocState`). -/
structure Allocation where
  state : AllocState
  runResult : ContainerRunResult
  allocatedAt : Int
  deriving DecidableEq

/-- Modelled from the spec: the allocation store, a mapping keyed by
container guid (see `AllocState`). -/
structure Store where
  entries : List (String × Allocation)
  deriving DecidableEq

/-- Modelled from the spec: `Lookup(guid)` (see `AllocState`). -/
def lookup (s : Store) (guid : String) : Option Allocation :=
  (s.entries.find? (fun p => p.1 = guid)).map (·.2)

/-- Replace the entry stored under `guid`. -/
def update (s : Store) (guid : String) (a : Allocation) : Store :=
  { entries := s.entries.map (fun p => if p.1 = guid then (p.1, a) else p) }

/-- Modelled from the spec: `Allocate(container)` at time `now` (see
`AllocState`).  Fails when the guid is present; otherwise inserts the
entry in `Reserved`, stamping the allocation time. -/
def Allocate (s : Store) (guid : String) (now : Int) : Except ExecErr Store :=
  match lookup s guid with
  | some _ => .error .alreadyExists
  | none =>
    .ok { entries :=
            (guid, { state := .reserved
                     runResult := { failed := false, failureReason := "" }
                     allocatedAt := now }) :: s.entries }

/-- Modelled from the spec: the initialize operation (see `AllocState`).
Requires current state `Reserved`; transitions to `Initializing`. -/
def initializeEntry (s : Store) (guid : String) : Except ExecErr Store :=
  match lookup s guid with
  | none => .error .containerNotFound
  | some a =>
    if a.state = .reserved then
      .ok (update s guid { a with state := .initializing })
    else .error .invalidTransition

/-- Modelled from the spec: `Fail(guid, reason)` (see `AllocState`).
From `Initializing` it records a failed run result carrying the reason
and — as pinned by the in-repo test — marks the entry `Completed`; any
other state is an invalid transition. -/
def Fail (s : Store) (guid : String) (reason : String) : Except ExecErr Store :=
  match lookup s guid with
  | none => .error .containerNotFound
  | some a =>
    if a.state = .initializing then
      .ok (update s guid
        { a with state := .completed
                 runResult := { failed := true, failureReason := reason } })
    else .error .invalidTransition

/-- Modelled from the spec: `Deallocate(guid)` (see `AllocState`).
Removes the entry. -/
def Deallocate (s : Store) (guid : String) : Except ExecErr Store :=
  match lookup s guid with
  | none => .error .containerNotFound
  | some _ => .ok { entries := s.entries.filter (fun p => ¬ (p.1 = guid)) }

end AllocationStore

namespace SerialStep

/-- Modelled from the spec: the serial step over the outcomes of its
children (`none` = the child's `Perform` returned nil).  The serial
step implementation (`depot/steps/serial_step.go`) is missing from src/
— only its test is present.  §4.4.8: children run strictly in order and
the first error short-circuits; `serialGo i outs` returns the indices of
the children whose `Perform` was invoked, the indices of the children
that completed without error (in order), and the step's outcome.  The
in-repo test (`serial_step_test.go:84-133`) pins that the failing child
itself is not cleaned up. -/
def serialGo (i : Nat) : List (Option MErr) → List Nat × List Nat × Option MErr
  | [] => ([], [], none)
  | o :: rest =>
    match o with
    | none =>
      let (p, sc, r) := serialGo (i + 1) rest
      (i :: p, i :: sc, r)
    | some e => ([i], [], some e)

/-- Indices of children performed by `Perform`. -/
def performed (outs : List (Option MErr)) : List Nat := (serialGo 0 outs).1

/-- Indices of children that completed without error. -/
def succeeded (outs : List (Option MErr)) : List Nat := (serialGo 0 outs).2.1

/-- The serial step's outcome: the first child error, else nil. -/
def result (outs : List (Option MErr)) : Option MErr := (serialGo 0 outs).2.2

/-- Modelled from the spec: the `cleanup()` order — the
already-performed (successfully completed) children in reverse order
(§4.4.8), pinned by the in-repo test. -/
def cleanupOrder (outs : List (Option MErr)) : List Nat := (succeeded outs).reverse

end SerialStep

namespace ParallelStep

/-- Modelled from the spec: the parallel step over its children's
outcomes, given the order in which the children complete.  The parallel
step implementation (`depot/steps/parallel_step/parallel_step.go`) is
missing from src/ — only its test is present (`src/unnamed/part_003`).  §4.4.7:
all children are started, `Perform` waits for every completion, and the
first error observed (by completion order) is the outcome.
`parallelCollect outs order` processes the full completion order (the
wait-group is only released once `order` is exhausted) and returns the
outcome together with the number of completions awaited. -/
def parallelCollect (outs : List (Option MErr)) :
    List Nat → Option MErr × Nat
  | [] => (none, 0)
  | i :: rest =>
    let (r, k) := parallelCollect outs rest
    match outs.getD i none with
    | some e => (some e, k + 1)
    | none => (r, k + 1)

end ParallelStep

namespace DownloadStep

/-- The close state of a Go channel: `closeChan` models the `close`
builtin, whose result is a runtime panic (`none`) when the channel is
already closed. -/
def closeChan (closed : Bool) : Option Bool :=
  if closed then none else some true

/-- The download step's cancellation state: whether `cancelChan` has
been closed (`steps/download_step.go`, src/unnamed/part_002:39-54). -/
structure State where
  cancelChanClosed : Bool
  deriving DecidableEq

/-- A fresh download step (`NewDownload` makes an open `cancelChan`). -/
def fresh : State := { cancelChanClosed := false }

/-- `downloadStep.Cancel` (src/unnamed/part_002:52-54): a bare
`close(step.cancelChan)`; `none` models the close-of-closed-channel
panic. -/
def Cancel (st : State) : Option State :=
  (closeChan st.cancelChanClosed).map (fun b => { cancelChanClosed := b })

/-- Modelled from the spec: the shared canceller helper used by the
monitor steps.  `depot/steps/cancel.go` (the `canceller` struct whose
`Cancel` the spec requires to be idempotent and non-blocking) is missing
from src/; its state is whether the `cancelled` channel is closed, and
`Cancel` closes it only if it is not already closed. -/
def cancellerCancel (cancelled : Bool) : Bool :=
  if cancelled then cancelled else true

end DownloadStep

namespace MonitorStep

/-- The token-count invariant of the periodic-monitor loop: exactly one
token has been sent iff the step has transitioned to healthy. -/
def MonInv (st : MonState) : Prop :=
  st.tokens = (if st.healthy then 1 else 0)

theorem monTransition_true_healthy (cfg : MonitorConfig) (st : MonState) :
    (monTransition cfg st true).healthy = true := by
  unfold monTransition
  cases hh : st.healthy <;> simp [hh]

theorem monTransition_false_eq (cfg : MonitorConfig) (st : MonState) :
    monTransition cfg st false = st := by
  unfold monTransition
  simp

theorem monTransition_inv {cfg : MonitorConfig} {st : MonState} {b : Bool}
    (h : MonInv st) : MonInv (monTransition cfg st b) := by
  unfold monTransition MonInv at *
  cases hh : st.healthy <;> cases b <;> simp_all

theorem monDeadline_done_eq {st' : MonState} {now : Int} {e r : Option MErr}
    {st'' : MonState} (h : monDeadline st' now e = .done r st'') :
    r = e ∧ st'' = st' ∧ st'.healthy = false := by
  unfold monDeadline at h
  split at h
  · split at h
    · split at h
      · simp at h
      · next hh =>
        simp only [MonOutcome.done.injEq] at h
        exact ⟨h.1.symm, h.2.symm, by simpa using hh⟩
    · simp at h
  · simp at h

theorem monDeadline_inv {st' : MonState} {now : Int} {e : Option MErr}
    (h : MonInv st') : MonInv (monDeadline st' now e).finalSt := by
  unfold monDeadline
  split
  · split
    · split
      · simpa [MonOutcome.finalSt, MonInv] using h
      · simpa [MonOutcome.finalSt, MonInv] using h
    · simpa [MonOutcome.finalSt, MonInv] using h
  · simpa [MonOutcome.finalSt, MonInv] using h

theorem monTick_done_eq {cfg : MonitorConfig} {st : MonState} {now : Int}
    {e r : Option MErr} {st'' : MonState}
    (h : monTick cfg st now e = .done r st'') : r = e ∧ e ≠ none := by
  unfold monTick at h
  split at h
  · next hb =>
    simp only [MonOutcome.done.injEq] at h
    refine ⟨h.1.symm, ?_⟩
    intro hn
    rw [hn] at hb
    simp at hb
  · obtain ⟨hre, _, hunh⟩ := monDeadline_done_eq h
    refine ⟨hre, ?_⟩
    intro hn
    subst hn
    simp only [Option.isNone_none] at hunh
    rw [monTransition_true_healthy cfg st] at hunh
    exact absurd hunh (by simp)

theorem monTick_inv {cfg : MonitorConfig} {st : MonState} {now : Int}
    {e : Option MErr} (h : MonInv st) :
    MonInv (monTick cfg st now e).finalSt := by
  unfold monTick
  split
  · simpa [MonOutcome.finalSt] using h
  · exact monDeadline_inv (monTransition_inv h)

theorem monTick_none_running (cfg : MonitorConfig) (st : MonState) (now : Int) :
    ∃ st1, monTick cfg st now none = .running st1 := by
  cases h : monTick cfg st now none with
  | done r st'' =>
    obtain ⟨-, hne⟩ := monTick_done_eq h
    exact absurd rfl hne
  | running st1 => exact ⟨st1, rfl⟩

theorem monRun_done_facts {cfg : MonitorConfig} :
    ∀ {ticks : List (Int × Option MErr)} {st : MonState} {r : Option MErr}
      {st' : MonState},
    MonInv st → monRun cfg st ticks = .done r st' →
    r ≠ none ∧ MonInv st' ∧ r ∈ ticks.map (·.2) := by
  intro ticks
  induction ticks with
  | nil =>
    intro st r st' _ h
    simp [monRun] at h
  | cons p rest ih =>
    intro st r st' hinv h
    obtain ⟨now, e⟩ := p
    rw [monRun] at h
    cases htick : monTick cfg st now e with
    | done r0 st0 =>
      rw [htick] at h
      obtain ⟨hr0, hne⟩ := monTick_done_eq htick
      have hfin := @monTick_inv cfg st now e hinv
      rw [htick] at hfin
      simp only [MonOutcome.finalSt] at hfin
      simp only [MonOutcome.done.injEq] at h
      obtain ⟨hr, hst⟩ := h
      subst hr
      subst hst
      subst hr0
      exact ⟨hne, hfin, by simp⟩
    | running st1 =>
      rw [htick] at h
      have hfin := @monTick_inv cfg st now e hinv
      rw [htick] at hfin
      simp only [MonOutcome.finalSt] at hfin
      obtain ⟨a, b, c⟩ := ih hfin h
      exact ⟨a, b, by simp [c]⟩

theorem monRun_timeout {cfg : MonitorConfig} :
    ∀ (ticks : List (Int × Option MErr)) (st : MonState) (d : Int),
    st.healthy = false → st.startBy = some d → st.tokens = 0 →
    (∀ p ∈ ticks, p.2 ≠ (none : Option MErr)) →
    (∃ p ∈ ticks, d < p.1) →
    ∃ e st', monRun cfg st ticks = .done (some e) st' ∧ st'.tokens = 0
      ∧ some e ∈ ticks.map (·.2) := by
  intro ticks
  induction ticks with
  | nil =>
    intro st d _ _ _ _ hlate
    simp at hlate
  | cons p rest ih =>
    intro st d hh hsb ht hfail hlate
    obtain ⟨now, eo⟩ := p
    have hne : eo ≠ none := hfail (now, eo) (by simp)
    obtain ⟨e, rfl⟩ : ∃ e, eo = some e := by
      cases eo with
      | none => exact absurd rfl hne
      | some e => exact ⟨e, rfl⟩
    have htick : monTick cfg st now (some e) = monDeadline st now (some e) := by
      unfold monTick
      rw [if_neg (by simp [hh]), Option.isNone_some, monTransition_false_eq]
    rw [monRun, htick]
    unfold monDeadline
    simp only [hsb]
    by_cases hlt : d < now
    · rw [if_pos hlt, if_neg (by simp [hh])]
      exact ⟨e, st, rfl, ht, by simp⟩
    · rw [if_neg hlt]
      have hlate' : ∃ q ∈ rest, d < q.1 := by
        obtain ⟨q, hq, hdq⟩ := hlate
        rcases List.mem_cons.mp hq with hq1 | hq2
        · rw [hq1] at hdq
          exact absurd hdq hlt
        · exact ⟨q, hq2, hdq⟩
      obtain ⟨e', st', h1, h2, h3⟩ :=
        ih st d hh hsb ht (fun q hq => hfail q (List.mem_cons_of_mem _ hq)) hlate'
      exact ⟨e', st', h1, h2, by simp [h3]⟩

end MonitorStep

/-- Claim C1 is false as stated: on a concrete container that is in the
runtime but in state `running` (not `Created`), `Run` does return
`InvalidTransition`, but it has side effects — the effect trace is
non-empty, the runtime container's state property is moved to
`completed`, and a Complete event is emitted. -/
theorem claim_C1_counterexample :
    (GardenStore.Run ⟨[], [("g", ⟨"running", ""⟩)]⟩ ⟨"g", ContainerState.running⟩).1
        = .error .invalidTransition
  ∧ (GardenStore.Run ⟨[], [("g", ⟨"running", ""⟩)]⟩ ⟨"g", ContainerState.running⟩).2.2 ≠ []
  ∧ GardenStore.gardenLookup
        (GardenStore.Run ⟨[], [("g", ⟨"running", ""⟩)]⟩ ⟨"g", ContainerState.running⟩).2.1 "g"
      = some ⟨"completed", "failed=true;failure_reason=invalid state transition"⟩
  ∧ Effect.emitEvent
        (.complete ⟨"completed", "failed=true;failure_reason=invalid state transition"⟩)
      ∈ (GardenStore.Run ⟨[], [("g", ⟨"running", ""⟩)]⟩ ⟨"g", ContainerState.running⟩).2.2 := by
  decide

/-- Claim C1 (amended): for every container present in the runtime whose
state is not `Created`, `Run` fails with `InvalidTransition` and starts
no supervisor (the process registry is unchanged), but — contrary to the
original claim — it writes the failed run result and the `completed`
state onto the runtime container and emits a Complete event carrying
them. -/
theorem claim_C1_amended (s : GardenStore.StoreState)
    (c : GardenStore.ExecContainer) (g : GContainer)
    (hg : GardenStore.gardenLookup s c.guid = some g)
    (hs : c.state ≠ .created) :
    GardenStore.Run s c =
      (.error .invalidTransition,
       { s with garden := (GardenStore.gardenUpdate s.garden c.guid
           ⟨ContainerState.completed.propString,
            encodeResult ⟨true, ExecErr.invalidTransition.errString⟩⟩) },
       [ .setProperty containerResultProperty
           (encodeResult ⟨true, ExecErr.invalidTransition.errString⟩)
       , .setProperty containerStateProperty ContainerState.completed.propString
       , .emitEvent (.complete ⟨ContainerState.completed.propString,
           encodeResult ⟨true, ExecErr.invalidTransition.errString⟩⟩) ])
  ∧ (GardenStore.Run s c).2.1.runningProcesses = s.runningProcesses := by
  have key : GardenStore.Run s c =
      (.error .invalidTransition,
       { s with garden := (GardenStore.gardenUpdate s.garden c.guid
           ⟨ContainerState.completed.propString,
            encodeResult ⟨true, ExecErr.invalidTransition.errString⟩⟩) },
       [ .setProperty containerResultProperty
           (encodeResult ⟨true, ExecErr.invalidTransition.errString⟩)
       , .setProperty containerStateProperty ContainerState.completed.propString
       , .emitEvent (.complete ⟨ContainerState.completed.propString,
           encodeResult ⟨true, ExecErr.invalidTransition.errString⟩⟩) ]) := by
    unfold GardenStore.Run
    simp only [hg]
    rw [if_neg hs]
    rfl
  exact ⟨key, by rw [key]⟩

/-- Witness for the amended claim C1 at a concrete store and container. -/
theorem claim_C1_witness :
    GardenStore.Run ⟨[], [("g", ⟨"running", ""⟩)]⟩ ⟨"g", ContainerState.running⟩ =
      (.error .invalidTransition,
       ⟨[], [("g", ⟨"completed", "failed=true;failure_reason=invalid state transition"⟩)]⟩,
       [ .setProperty "executor:result" "failed=true;failure_reason=invalid state transition"
       , .setProperty "executor:state" "completed"
       , .emitEvent (.complete
           ⟨"completed", "failed=true;failure_reason=invalid state transition"⟩) ]) := by
  have h := claim_C1_amended ⟨[], [("g", ⟨"running", ""⟩)]⟩
    ⟨"g", ContainerState.running⟩ ⟨"running", ""⟩ (by decide) (by decide)
  exact h.1.trans (by decide)

/-- Claim C2 is false as stated: on a concrete supervisor run that is
signalled to stop and whose step tree then completes with an error, the
recorded run result is `failed=false` with an empty failure reason, not
reason "stopped". -/
theorem claim_C2_counterexample :
    (GardenStore.runStepLoop ⟨"created", ""⟩ GardenStore.loopInit []
        [.signal, .seqComplete (some (.basic "boom"))]).map (fun t => t.2.1)
      = some ⟨false, ""⟩
  ∧ (GardenStore.runStepLoop ⟨"created", ""⟩ GardenStore.loopInit []
        [.signal, .seqComplete (some (.basic "boom"))]).map (fun t => t.2.1.failureReason)
      ≠ some "stopped" := by
  decide

/-- Claim C2 (amended): for every container whose supervisor observed a
stop signal and whose step tree then completed with an error, the run
result written at completion is `failed=false` with an *empty* failure
reason (the code records no "stopped" string), and the emitted Complete
event carries exactly that result; this holds whether or not the
readiness token arrived in between. -/
theorem claim_C2_amended (g : GContainer) (e : MErr) :
    GardenStore.runStepLoop g GardenStore.loopInit []
        [.signal, .seqComplete (some e)]
      = some (⟨ContainerState.completed.propString, encodeResult ⟨false, ""⟩⟩,
              ⟨false, ""⟩,
              [ .cancelStep
              , .setProperty containerResultProperty (encodeResult ⟨false, ""⟩)
              , .setProperty containerStateProperty ContainerState.completed.propString
              , .emitEvent (.complete
                  ⟨ContainerState.completed.propString, encodeResult ⟨false, ""⟩⟩) ])
  ∧ (GardenStore.runStepLoop g GardenStore.loopInit []
        [.signal, .hasStartedRunning, .seqComplete (some e)]).map (fun t => t.2.1)
      = some ⟨false, ""⟩ := by
  exact ⟨rfl, rfl⟩

/-- Claim C4 is false as stated: at a concrete store with a running
supervisor, `Destroy` signals the supervisor and immediately instructs
the runtime to destroy the sandbox; no wait on the supervisor appears in
the effect trace before (or anywhere around) the runtime destroy call. -/
theorem claim_C4_counterexample :
    (GardenStore.Destroy ⟨["g"], [("g", ⟨"running", ""⟩)]⟩ "g").2.2
      = [.signalProcess "g", .gardenDestroy "g"]
  ∧ Effect.waitProcess "g"
      ∉ (GardenStore.Destroy ⟨["g"], [("g", ⟨"running", ""⟩)]⟩ "g").2.2
  ∧ Effect.gardenDestroy "g"
      ∈ (GardenStore.Destroy ⟨["g"], [("g", ⟨"running", ""⟩)]⟩ "g").2.2 := by
  decide

/-- Claim C4 (amended): for every container with a running supervisor,
`Destroy` signals the supervisor but does not wait for it to exit: it
immediately instructs the runtime to destroy the sandbox (its effect
trace is exactly signal-then-destroy, with no wait).  `Stop`, by
contrast, signals and then waits. -/
theorem claim_C4_amended (s : GardenStore.StoreState) (guid : String)
    (h : guid ∈ s.runningProcesses) :
    (GardenStore.Destroy s guid).2.2 = [.signalProcess guid, .gardenDestroy guid]
  ∧ Effect.waitProcess guid ∉ (GardenStore.Destroy s guid).2.2
  ∧ (GardenStore.Stop s guid).2.2 = [.signalProcess guid, .waitProcess guid] := by
  simp [GardenStore.Destroy, GardenStore.Stop, GardenStore.freeStepProcess, h]

/-- Witness for the amended claim C4 at a concrete store. -/
theorem claim_C4_witness :
    (GardenStore.Destroy ⟨["g"], []⟩ "g").2.2 = [.signalProcess "g", .gardenDestroy "g"]
  ∧ Effect.waitProcess "g" ∉ (GardenStore.Destroy ⟨["g"], []⟩ "g").2.2
  ∧ (GardenStore.Stop ⟨["g"], []⟩ "g").2.2 = [.signalProcess "g", .waitProcess "g"] :=
  claim_C4_amended ⟨["g"], []⟩ "g" (by decide)

/-- Claim C10: `Stop` returns `ErrContainerNotFound` whenever no running
step process is registered under the guid — regardless of what the
runtime holds (the store state, including its garden containers, is
untouched) — and after a successful `Stop` removed the entry, a second
`Stop` of the same guid returns `ErrContainerNotFound`. -/
theorem claim_C10_stop_not_found (s : GardenStore.StoreState) (guid : String) :
    (guid ∉ s.runningProcesses →
      GardenStore.Stop s guid = (.error .containerNotFound, s, []))
  ∧ (guid ∈ s.runningProcesses →
      (GardenStore.Stop s guid).1 = .ok ()
      ∧ guid ∉ (GardenStore.Stop s guid).2.1.runningProcesses
      ∧ (GardenStore.Stop (GardenStore.Stop s guid).2.1 guid).1
          = .error .containerNotFound) := by
  constructor
  · intro h
    simp [GardenStore.Stop, GardenStore.freeStepProcess, h]
  · intro h
    refine ⟨?_, ?_, ?_⟩
    · simp [GardenStore.Stop, GardenStore.freeStepProcess, h]
    · simp [GardenStore.Stop, GardenStore.freeStepProcess, h, List.mem_filter]
    · simp [GardenStore.Stop, GardenStore.freeStepProcess, h, List.mem_filter]

theorem alloc_lookup_update {s : AllocationStore.Store} {guid : String}
    {a : AllocationStore.Allocation} (b : AllocationStore.Allocation)
    (h : AllocationStore.lookup s guid = some a) :
    AllocationStore.lookup (AllocationStore.update s guid b) guid = some b := by
  obtain ⟨l⟩ := s
  unfold AllocationStore.lookup AllocationStore.update at *
  simp only at h ⊢
  induction l with
  | nil => simp [List.find?] at h
  | cons p rest ih =>
    by_cases hp : p.1 = guid
    · simp [List.find?, hp]
    · rw [List.map_cons, if_neg hp, List.find?_cons_of_neg _ (by simp [hp])]
      rw [List.find?_cons_of_neg _ (by simp [hp])] at h
      exact ih h

theorem alloc_lookup_erase (l : List (String × AllocationStore.Allocation))
    (guid : String) :
    AllocationStore.lookup ⟨l.filter (fun p => ¬ (p.1 = guid))⟩ guid = none := by
  unfold AllocationStore.lookup
  simp only
  induction l with
  | nil => simp
  | cons p rest ih =>
    by_cases hp : p.1 = guid
    · simp [List.filter_cons, hp, ih]
    · simp [List.filter_cons, hp, List.find?, ih]

/-- Claim C3 is false as stated: driving a concrete entry through
allocate, initialize and fail leaves it in the store with state
`Completed` — the allocation store does mark the entry `Completed`
(exactly as the in-repo allocation-store test asserts). -/
theorem claim_C3_counterexample :
    AllocationStore.Allocate ⟨[]⟩ "banana" 0
      = .ok ⟨[("banana", ⟨.reserved, ⟨false, ""⟩, 0⟩)]⟩
  ∧ AllocationStore.initializeEntry ⟨[("banana", ⟨.reserved, ⟨false, ""⟩, 0⟩)]⟩ "banana"
      = .ok ⟨[("banana", ⟨.initializing, ⟨false, ""⟩, 0⟩)]⟩
  ∧ AllocationStore.Fail ⟨[("banana", ⟨.initializing, ⟨false, ""⟩, 0⟩)]⟩ "banana"
        "failure-reason"
      = .ok ⟨[("banana", ⟨.completed, ⟨true, "failure-reason"⟩, 0⟩)]⟩
  ∧ (AllocationStore.lookup ⟨[("banana", ⟨.completed, ⟨true, "failure-reason"⟩, 0⟩)]⟩
        "banana").map (·.state)
      = some .completed := by
  decide

/-- Claim C3 (amended): for every entry in state `Initializing`, a
successful `Fail(guid, reason)` records a failed run result carrying
that reason and marks the entry `Completed` in the store; the entry
remains in the store (lookup still finds it) until the caller
deallocates it, at which point it is gone. -/
theorem claim_C3_amended (s : AllocationStore.Store) (guid reason : String)
    (a : AllocationStore.Allocation)
    (hl : AllocationStore.lookup s guid = some a)
    (hs : a.state = .initializing) :
    AllocationStore.Fail s guid reason
      = .ok (AllocationStore.update s guid ⟨.completed, ⟨true, reason⟩, a.allocatedAt⟩)
  ∧ AllocationStore.lookup
        (AllocationStore.update s guid ⟨.completed, ⟨true, reason⟩, a.allocatedAt⟩) guid
      = some ⟨.completed, ⟨true, reason⟩, a.allocatedAt⟩
  ∧ AllocationStore.Deallocate
        (AllocationStore.update s guid ⟨.completed, ⟨true, reason⟩, a.allocatedAt⟩) guid
      = .ok ⟨(AllocationStore.update s guid
              ⟨.completed, ⟨true, reason⟩, a.allocatedAt⟩).entries.filter
                (fun p => ¬ (p.1 = guid))⟩
  ∧ AllocationStore.lookup
        ⟨(AllocationStore.update s guid
            ⟨.completed, ⟨true, reason⟩, a.allocatedAt⟩).entries.filter
              (fun p => ¬ (p.1 = guid))⟩ guid
      = none := by
  have hlu := alloc_lookup_update
    (⟨.completed, ⟨true, reason⟩, a.allocatedAt⟩ : AllocationStore.Allocation) hl
  refine ⟨?_, hlu, ?_, alloc_lookup_erase _ _⟩
  · unfold AllocationStore.Fail
    simp only [hl]
    rw [if_pos hs]
  · unfold AllocationStore.Deallocate
    simp only [hlu]

/-- Witness for the amended claim C3 at a concrete store. -/
theorem claim_C3_witness :
    AllocationStore.Fail ⟨[("banana", ⟨.initializing, ⟨false, ""⟩, 0⟩)]⟩ "banana"
        "failure-reason"
      = .ok ⟨[("banana", ⟨.completed, ⟨true, "failure-reason"⟩, 0⟩)]⟩ := by
  have h := claim_C3_amended ⟨[("banana", ⟨.initializing, ⟨false, ""⟩, 0⟩)]⟩ "banana"
    "failure-reason" ⟨.initializing, ⟨false, ""⟩, 0⟩ (by decide) rfl
  exact h.1.trans (by decide)

/-- Claim C5: for every `Serial{a, b, c}` where `a` succeeds and `b`
fails, the serial step performs `a` and `b` but not `c`, cleans up
exactly the already-performed child `a` (in reverse order) and not `c`,
and its outcome is exactly `b`'s error. -/
theorem claim_C5_serial_short_circuit (e : MErr) (oc : Option MErr) :
    SerialStep.performed [none, some e, oc] = [0, 1]
  ∧ SerialStep.cleanupOrder [none, some e, oc] = [0]
  ∧ (2 : Nat) ∉ SerialStep.performed [none, some e, oc]
  ∧ (2 : Nat) ∉ SerialStep.cleanupOrder [none, some e, oc]
  ∧ SerialStep.result [none, some e, oc] = some e := by
  have hp : SerialStep.performed [none, some e, oc] = [0, 1] := rfl
  have hc : SerialStep.cleanupOrder [none, some e, oc] = [0] := rfl
  exact ⟨hp, hc, by rw [hp]; decide, by rw [hc]; decide, rfl⟩

theorem parallelCollect_count (outs : List (Option MErr)) (order : List Nat) :
    (ParallelStep.parallelCollect outs order).2 = order.length := by
  induction order with
  | nil => rfl
  | cons i rest ih =>
    rw [ParallelStep.parallelCollect]
    cases h : outs.getD i none <;> simp [h, ih]

theorem parallelCollect_first_error (e : MErr) :
    ∀ (order : List Nat), 0 ∈ order → (∀ i ∈ order, i = 0 ∨ i = 1) →
    (ParallelStep.parallelCollect [some e, none] order).1 = some e := by
  intro order
  induction order with
  | nil =>
    intro h0 _
    simp at h0
  | cons i rest ih =>
    intro h0 hv
    rcases hv i (by simp) with h1 | h1
    · subst h1
      rw [ParallelStep.parallelCollect]
      simp [List.getD_cons_zero]
    · subst h1
      rw [ParallelStep.parallelCollect]
      have h0' : 0 ∈ rest := by
        rcases List.mem_cons.mp h0 with h | h
        · exact absurd h (by decide)
        · exact h
      have hres := ih h0' (fun j hj => hv j (List.mem_cons_of_mem _ hj))
      simp [List.getD_cons_succ, List.getD_cons_zero, hres]

/-- Claim C6: for every `Parallel{a, b}` where `a` fails and `b` is
still running, the parallel step's `Perform` awaits every child
completion before returning (it processes the entire completion order,
of which `b`'s completion is part), and its outcome is `a`'s error —
the first error observed in completion order — whatever that order is. -/
theorem claim_C6_parallel_first_error (e : MErr) (order : List Nat)
    (h0 : 0 ∈ order) (hv : ∀ i ∈ order, i = 0 ∨ i = 1) :
    (ParallelStep.parallelCollect [some e, none] order).1 = some e
  ∧ (ParallelStep.parallelCollect [some e, none] order).2 = order.length := by
  exact ⟨parallelCollect_first_error e order h0 hv, parallelCollect_count _ order⟩

/-- Witness for claim C6: the failing child completes first in one
order, last in the other; both orders give `a`'s error and await both
completions. -/
theorem claim_C6_witness :
    (ParallelStep.parallelCollect [some (.basic "boom"), none] [1, 0]).1
      = some (.basic "boom")
  ∧ (ParallelStep.parallelCollect [some (.basic "boom"), none] [1, 0]).2 = 2 := by
  have h := claim_C6_parallel_first_error (.basic "boom") [1, 0] (by decide) (by decide)
  exact ⟨h.1, h.2.trans (by decide)⟩

/-- Claim C7 is false as stated: at a concrete schedule whose readiness
check never succeeds, the periodic monitor's `Perform` terminates past
the deadline returning the raw (non-emittable) check error, not a
timeout emittable error; and the long-running monitor sends the
readiness token when its readiness check returns an error before the
deadline, so a token can be produced even though the check never
returned success. -/
theorem claim_C7_counterexample :
    MonitorStep.monPerform ⟨5, 1, 1, 0⟩ [((6 : Int), some (MErr.basic "check failed"))]
      = .done (some (.basic "check failed")) ⟨false, 1, some 5, 0⟩
  ∧ (MErr.basic "check failed").isEmittable = false
  ∧ (LongRunningMonitor.lrmPerform
        (.checkReturns (some (.basic "conn refused"))) (.cancelFirst none)).tokens = 1 := by
  decide

/-- Claim C7 (amended): with a positive start timeout, positive
intervals, a readiness check that never succeeds, and a tick past the
deadline, the periodic monitor's `Perform` terminates with one of the
failing checks' errors (returned unwrapped — the timeout message goes to
the log, not into the error) and sends no token; the long-running
monitor, when its readiness check has not returned by the time the
timer fires, terminates with an emittable error and sends no token —
but if the readiness check returns before the timer, even with an
error, the token is sent. -/
theorem claim_C7_amended (cfg : MonitorStep.MonitorConfig)
    (ticks : List (Int × Option MErr))
    (hh : 0 < cfg.healthyInterval) (hu : 0 < cfg.unhealthyInterval)
    (hst : 0 < cfg.startTimeout)
    (hfail : ∀ p ∈ ticks, p.2 ≠ (none : Option MErr))
    (hlate : ∃ p ∈ ticks, cfg.now0 + cfg.startTimeout < p.1)
    (e : Option MErr) (p2 : LongRunningMonitor.Phase2) :
    ((LongRunningMonitor.lrmPerform (.timerFires e) p2).tokens = 0
      ∧ (LongRunningMonitor.lrmPerform (.timerFires e) p2).result
          = some (.emittable LongRunningMonitor.healthcheckNowUnhealthy))
  ∧ (LongRunningMonitor.lrmPerform (.checkReturns e) p2).tokens = 1
  ∧ (∃ err st, MonitorStep.monPerform cfg ticks = .done (some err) st
        ∧ st.tokens = 0 ∧ some err ∈ ticks.map (·.2)) := by
  refine ⟨⟨rfl, rfl⟩, ?_, ?_⟩
  · cases p2 <;> rfl
  · unfold MonitorStep.monPerform
    rw [if_neg (not_le.mpr hh), if_neg (not_le.mpr hu)]
    have hinit1 : (MonitorStep.monInit cfg).healthy = false := rfl
    have hinit2 : (MonitorStep.monInit cfg).startBy
        = some (cfg.now0 + cfg.startTimeout) := by
      unfold MonitorStep.monInit
      simp [hst]
    have hinit3 : (MonitorStep.monInit cfg).tokens = 0 := rfl
    exact MonitorStep.monRun_timeout ticks _ _ hinit1 hinit2 hinit3 hfail hlate

/-- Witness for the amended claim C7 at a concrete schedule. -/
theorem claim_C7_witness :
    MonitorStep.monPerform ⟨5, 1, 1, 0⟩ [((6 : Int), some (MErr.basic "nope"))]
      = .done (some (.basic "nope")) ⟨false, 1, some 5, 0⟩
  ∧ (LongRunningMonitor.lrmPerform (.timerFires none) (.cancelFirst none)).tokens = 0 := by
  have h := claim_C7_amended ⟨5, 1, 1, 0⟩ [((6 : Int), some (MErr.basic "nope"))]
    (by decide) (by decide) (by decide) (by decide)
    ⟨((6 : Int), some (MErr.basic "nope")), by simp, by decide⟩ none (.cancelFirst none)
  exact ⟨by decide, h.1.1⟩

/-- Claim C8 is false as stated: the download step's first cancel closes
its cancellation channel, and a second cancel — far from being a no-op —
closes an already-closed channel, which faults (a Go runtime panic). -/
theorem claim_C8_counterexample :
    DownloadStep.Cancel DownloadStep.fresh = some ⟨true⟩
  ∧ (DownloadStep.Cancel DownloadStep.fresh).bind DownloadStep.Cancel = none := by
  decide

/-- Claim C8 (amended): cancel is idempotent for the steps built on the
shared canceller helper (a second cancel is a no-op), but not for the
download step: its cancel closes the cancellation channel without a
guard, so the first cancel succeeds and a second cancel faults (close of
a closed channel) instead of being a no-op. -/
theorem claim_C8_amended (b : Bool) :
    DownloadStep.cancellerCancel (DownloadStep.cancellerCancel b)
      = DownloadStep.cancellerCancel b
  ∧ DownloadStep.Cancel DownloadStep.fresh = some ⟨true⟩
  ∧ (DownloadStep.Cancel DownloadStep.fresh).bind DownloadStep.Cancel = none := by
  cases b <;> exact ⟨rfl, rfl, rfl⟩

/-- Claim C9: absent cancellation, the periodic monitor's `Perform`
never returns a nil error — any terminating run yields a non-nil error —
the number of tokens sent equals one exactly when the step has
transitioned to healthy (so the token is sent once, at the transition),
and a tick whose check succeeds never terminates the loop. -/
theorem claim_C9_periodic_monitor (cfg : MonitorStep.MonitorConfig)
    (ticks : List (Int × Option MErr)) (r : Option MErr)
    (st : MonitorStep.MonState)
    (hdone : MonitorStep.monPerform cfg ticks = .done r st) :
    r ≠ none
  ∧ st.tokens = (if st.healthy then 1 else 0)
  ∧ (∀ st0 now, ∃ st1, MonitorStep.monTick cfg st0 now none = .running st1) := by
  have key : r ≠ none ∧ MonitorStep.MonInv st := by
    unfold MonitorStep.monPerform at hdone
    by_cases h1 : cfg.healthyInterval ≤ 0
    · rw [if_pos h1] at hdone
      simp only [MonitorStep.MonOutcome.done.injEq] at hdone
      obtain ⟨hr, hst⟩ := hdone
      refine ⟨by rw [← hr]; simp, ?_⟩
      rw [← hst]
      rfl
    · rw [if_neg h1] at hdone
      by_cases h2 : cfg.unhealthyInterval ≤ 0
      · rw [if_pos h2] at hdone
        simp only [MonitorStep.MonOutcome.done.injEq] at hdone
        obtain ⟨hr, hst⟩ := hdone
        refine ⟨by rw [← hr]; simp, ?_⟩
        rw [← hst]
        rfl
      · rw [if_neg h2] at hdone
        have hinv : MonitorStep.MonInv (MonitorStep.monInit cfg) := rfl
        obtain ⟨a, b, -⟩ := MonitorStep.monRun_done_facts hinv hdone
        exact ⟨a, b⟩
  exact ⟨key.1, key.2, fun st0 now => MonitorStep.monTick_none_running cfg st0 now⟩

/-- Witness for claim C9 at a concrete schedule that terminates. -/
theorem claim_C9_witness :
    (some (MErr.basic "x") : Option MErr) ≠ none
  ∧ (⟨false, 1, some 5, 0⟩ : MonitorStep.MonState).tokens
      = (if (⟨false, 1, some 5, 0⟩ : MonitorStep.MonState).healthy then 1 else 0) := by
  have h := claim_C9_periodic_monitor ⟨5, 1, 1, 0⟩
    [((1 : Int), some (MErr.basic "x")), ((6 : Int), some (MErr.basic "x"))]
    (some (MErr.basic "x")) ⟨false, 1, some 5, 0⟩ (by decide)
  exact ⟨h.1, h.2.1⟩

/-- Witness for claim C10: a container that exists in the runtime but
was never run, and a second stop after a successful one, both fail with
not-found. -/
theorem claim_C10_witness :
    GardenStore.Stop ⟨[], [("g", ⟨"created", ""⟩)]⟩ "g"
      = (.error .containerNotFound, ⟨[], [("g", ⟨"created", ""⟩)]⟩, [])
  ∧ (GardenStore.Stop (GardenStore.Stop ⟨["g"], []⟩ "g").2.1 "g").1
      = .error .containerNotFound := by
  refine ⟨(claim_C10_stop_not_found _ "g").1 (by decide),
          ((claim_C10_stop_not_found ⟨["g"], []⟩ "g").2 (by decide)).2.2⟩

end Executor
